import Mathlib

/-!
Shallow embedding of the `itsdalmo/cli` command-line library (Go), covering the
flag-parsing engine: the pflag-style flag set parser used by the library
(`spf13/pflag`, as exercised by `src/parse.go` and `src/cli.go`), the
unknown-flag recovery (`ErrUnknownFlag.Unparsed` in `src/parse.go`), resolver
application (`ResolveMissingFlags` in `src/unnamed/part_003`), flag-scope
merging (`Command.combinedFlags` in `src/cli.go`) and the command tree walk
(`Command.Setup` / `Command.Parse` / `Command.Execute` in `src/cli.go`).

Go strings are byte slices; every string inspected by the modelled code is
ASCII, so character positions coincide with Go byte positions and Lean `String`
(a list of characters) is a faithful representation.
-/

namespace Cli

/-- Characters of a string. -/
def chars (s : String) : List Char := s.data

/-- String from characters. -/
def ofChars (l : List Char) : String := ⟨l⟩

/-- Go `strings.HasPrefix s p`. -/
def strStarts (s p : String) : Bool := p.data.isPrefixOf s.data

/-- Go `strings.TrimPrefix s p`: drop one leading occurrence of `p` if present. -/
def trimLead (s p : String) : String :=
  if strStarts s p then ofChars (s.data.drop p.data.length) else s

/-- Helper for `subIdx`: first index at or after `i` where `pat` occurs. -/
def subIdxAux (pat : List Char) : List Char → Nat → Option Nat
  | [], i => if pat.isPrefixOf ([] : List Char) then some i else none
  | c :: t, i => if pat.isPrefixOf (c :: t) then some i else subIdxAux pat t (i + 1)

/-- Go `strings.Index s p` (first occurrence of a substring), `none` for -1. -/
def subIdx (s p : String) : Option Nat := subIdxAux p.data s.data 0

/-- Go `strings.TrimSpace` restricted to ASCII whitespace (all inputs are ASCII). -/
def trimSpace (s : String) : String :=
  let ws := fun c => c = ' ' ∨ c = '\t' ∨ c = '\n' ∨ c = '\r'
  ofChars (((s.data.dropWhile (fun c => decide (ws c))).reverse.dropWhile
    (fun c => decide (ws c))).reverse)

/-- Split a character list on a separator character (Go `strings.Split`). -/
def splitOnChar (sep : Char) : List Char → List (List Char)
  | [] => [[]]
  | c :: t =>
    let rest := splitOnChar sep t
    if c = sep then [] :: rest
    else match rest with
      | [] => [[c]]
      | h :: r => (c :: h) :: r

/-- Go `strings.Split s (String.singleton sep)`. -/
def strSplit (s : String) (sep : Char) : List String :=
  (splitOnChar sep s.data).map ofChars

/-- The ASCII single-quote character, used by Go `%q` formatting of a byte. -/
def squote : Char := Char.ofNat 39

/-- Go `%q` of a single byte, e.g. the letter u between single quotes. -/
def quoteChar (c : Char) : String := ofChars [squote, c, squote]

/-- Go `%q` of a string (double quotes; contents are never re-parsed here). -/
def quoteStr (s : String) : String := ofChars ('"' :: s.data ++ ['"'])

/-- Concatenate with single spaces (Go `%v` of a string slice, inner part). -/
def joinSp : List String → String
  | [] => ""
  | [x] => x
  | x :: t => x ++ " " ++ joinSp t

/-! ## Flag values

The library's generated flag types (`flag_gen.go`) wrap `pflag` typed values.
The claims exercise the bool and string variants; a value slot is a typed cell
mutated by `Set(string)`, failing exactly when the string does not parse at the
slot's type. -/

/-- A typed pflag value slot (bool and string variants, the ones the claims use). -/
inductive FlagValue where
  | b (v : Bool)
  | s (v : String)
deriving DecidableEq, Repr

/-- Detail payload of the library's `ErrMisconfigured` messages. -/
inductive MisDetail where
  | usageMustBeDefined
  | mustDefineEither
  | cannotDefineBoth
  | redefinedGlobal (names : List String)
deriving DecidableEq, Repr

/-- Errors produced by the modelled code, carrying the data their Go
messages are formatted from. -/
inductive GoErr where
  | unknownFlag (name : String)
  | unknownShorthand (c : Char) (rest : String)
  | help
  | badSyntax (token : String)
  | needsArgLong (token : String)
  | needsArgShort (c : Char) (rest : String)
  | invalidArg (value flagName causeMsg : String)
  | invalidSyntax (fn value : String)
  | missingRequired (names : List String)
  | noSubcommand
  | misconfigured (cmd : String) (detail : MisDetail)
  | outOfFuel
deriving DecidableEq, Repr

/-- Message text of an `ErrMisconfigured` detail. -/
def MisDetail.msg : MisDetail → String
  | .usageMustBeDefined => "usage must be defined"
  | .mustDefineEither => "must define either exec or subcommands"
  | .cannotDefineBoth => "cannot define both exec and subcommands"
  | .redefinedGlobal names => "global flags redefined locally: [" ++ joinSp names ++ "]"

/-- The Go `Error()` string of each error (the cli code inspects these). -/
def GoErr.msg : GoErr → String
  | .unknownFlag n => "unknown flag: --" ++ n
  | .unknownShorthand c rest => "unknown shorthand flag: " ++ quoteChar c ++ " in -" ++ rest
  | .help => "pflag: help requested"
  | .badSyntax t => "bad flag syntax: " ++ t
  | .needsArgLong t => "flag needs an argument: " ++ t
  | .needsArgShort c rest =>
    "flag needs an argument: " ++ quoteChar c ++ " in -" ++ rest
  | .invalidArg v fn cause => "invalid argument " ++ quoteStr v ++ " for " ++ fn ++
    " flag: " ++ cause
  | .invalidSyntax fn v => "strconv." ++ fn ++ ": parsing " ++ quoteStr v ++
    ": invalid syntax"
  | .missingRequired names => "missing required flags [" ++ joinSp names ++ "]"
  | .noSubcommand => "no subcommand specified. See --help"
  | .misconfigured c d => "misconfigured command " ++ quoteStr c ++ ": " ++ d.msg
  | .outOfFuel => "model fuel exhausted (unreachable)" 

/-- Go `strconv.ParseBool`. -/
def parseBool (s : String) : Option Bool :=
  if s = "1" ∨ s = "t" ∨ s = "T" ∨ s = "true" ∨ s = "TRUE" ∨ s = "True" then some true
  else if s = "0" ∨ s = "f" ∨ s = "F" ∨ s = "false" ∨ s = "FALSE" ∨ s = "False" then
    some false
  else none

/-- `Value.Set` of a pflag typed value: returns the new cell contents and an
error when the string does not parse. Mirrors Go `boolValue.Set`, which writes
the (zero-on-failure) parsed value into the cell even when it returns an error. -/
def valueSet : FlagValue → String → FlagValue × Option GoErr
  | .b _, v =>
    match parseBool v with
    | some x => (.b x, none)
    | none => (.b false, some (.invalidSyntax "ParseBool" v))
  | .s _, v => (.s v, none)

/-! ## pflag flag sets -/

/-- One registered `pflag.Flag`. `noOptDefVal` is the value used when the flag
appears without an argument; `pflag.BoolVarP` sets it to "true". -/
structure PFlag where
  name : String
  shorthand : String
  value : FlagValue
  noOptDefVal : String
  changed : Bool
deriving DecidableEq, Repr

/-- A `pflag.FlagSet`: declared flags (in registration order) and the
positional arguments accumulated by `Parse`. -/
structure FlagSet where
  formal : List PFlag
  args : List String
deriving DecidableEq, Repr

/-- `pflag.FlagSet.Lookup` (by long name). -/
def lookup (fs : FlagSet) (n : String) : Option PFlag :=
  fs.formal.find? (fun f => f.name = n)

/-- `pflag.FlagSet.ShorthandLookup`; the empty string looks up nothing. -/
def shorthandLookup (fs : FlagSet) (sh : String) : Option PFlag :=
  if sh = "" then none else fs.formal.find? (fun f => f.shorthand = sh)

/-- Shorthand lookup by character (pflag indexes shorthands by byte). -/
def shorthandLookupChar (fs : FlagSet) (c : Char) : Option PFlag :=
  fs.formal.find? (fun f => f.shorthand = ofChars [c])

/-- Replace the flag named `n` (the unique registered name) using `g`. -/
def updateFlag (fs : FlagSet) (n : String) (g : PFlag → PFlag) : FlagSet :=
  { fs with formal := fs.formal.map (fun f => if f.name = n then g f else f) }

/-- `pflag.FlagSet.Set`: set a flag's value from a string, marking it changed;
a typed-set failure is wrapped as pflag's "invalid argument" error and the
cell still receives the zero-on-failure write (Go `boolValue.Set`). -/
def fsSet (fs : FlagSet) (n : String) (v : String) : FlagSet × Option GoErr :=
  match lookup fs n with
  | none => (fs, some (.unknownFlag n))
  | some f =>
    match valueSet f.value v with
    | (nv, none) =>
      (updateFlag fs n (fun fl => { fl with value := nv, changed := true }), none)
    | (nv, some e) =>
      (updateFlag fs n (fun fl => { fl with value := nv }),
        some (.invalidArg v f.name e.msg))

/-- `pflag.FlagSet.Arg 0`: first positional argument, or "" when absent. -/
def fsArg0 (fs : FlagSet) : String :=
  match fs.args with
  | [] => ""
  | a :: _ => a

/-- Bytewise lexicographic string comparison (Go `sort.Strings` order; all
names are ASCII, so character order equals byte order). -/
def strLeChars : List Char → List Char → Bool
  | [], _ => true
  | _ :: _, [] => false
  | a :: as, b :: bs =>
    if a.toNat < b.toNat then true
    else if b.toNat < a.toNat then false
    else strLeChars as bs

/-- Bytewise lexicographic order on strings. -/
def strLe (a b : String) : Bool := strLeChars a.data b.data

/-- Sorted view used by `pflag.FlagSet.VisitAll` (`SortFlags` defaults to true;
flags are visited in ascending name order). -/
def sortedFormal (fs : FlagSet) : List PFlag :=
  fs.formal.insertionSort (fun a b => strLe a.name b.name = true)

/-! ## pflag argument parsing

Faithful to `pflag.FlagSet.parseArgs` / `parseLongArg` / `parseShortArg` /
`parseSingleShortArg` with default options (interspersed parsing on, no
unknown-flag whitelist, no normalization). The boolean in the result of the
per-token parsers records whether the next argument was consumed as a value. -/

/-- `pflag` long-flag parsing for a token `s` that starts with two dashes and
is longer than two characters. -/
def parseLongArg (fs : FlagSet) (s : String) (rest : List String) :
    FlagSet × Bool × Option GoErr :=
  let name0 := s.data.drop 2
  if name0.length = 0 ∨ name0.headD ' ' = '-' ∨ name0.headD ' ' = '=' then
    (fs, false, some (.badSyntax s))
  else
    let parts := splitOnChar '=' name0
    let name := ofChars (parts.headD [])
    let valOpt : Option String :=
      match parts with
      | [] => none
      | [_] => none
      | _ :: v :: more =>
        -- SplitN(name, "=", 2): everything after the first "=" is the value.
        some (ofChars (List.intercalate ['='] (v :: more)))
    match lookup fs name with
    | none =>
      if name = "help" then (fs, false, some .help)
      else (fs, false, some (.unknownFlag name))
    | some f =>
      match valOpt with
      | some v =>
        let (fs', e) := fsSet fs name v
        (fs', false, e)
      | none =>
        if f.noOptDefVal ≠ "" then
          let (fs', e) := fsSet fs name f.noOptDefVal
          (fs', false, e)
        else
          match rest with
          | v :: _ =>
            let (fs', e) := fsSet fs name v
            (fs', true, e)
          | [] => (fs, false, some (.needsArgLong s))

/-- `pflag` shorthand chain parsing (`parseShortArg`'s loop over
`parseSingleShortArg`). `sh` is the chain after the single dash. -/
def parseShortLoop (fs : FlagSet) (rest : List String) : List Char →
    FlagSet × Bool × Option GoErr
  | [] => (fs, false, none)
  | c :: tail =>
    if ("test.".data).isPrefixOf (c :: tail) then (fs, false, none)
    else
      match shorthandLookupChar fs c with
      | none =>
        if c = 'h' then (fs, false, some .help)
        else (fs, false, some (.unknownShorthand c (ofChars (c :: tail))))
      | some f =>
        match tail with
        | '=' :: d :: ds =>
          -- len(shorthands) > 2 and shorthands[1] == '=': value is shorthands[2:]
          let (fs', e) := fsSet fs f.name (ofChars (d :: ds))
          (fs', false, e)
        | _ =>
          if f.noOptDefVal ≠ "" then
            let (fs', e) := fsSet fs f.name f.noOptDefVal
            match e with
            | some err => (fs', false, some err)
            | none => parseShortLoop fs' rest tail
          else if tail ≠ [] then
            let (fs', e) := fsSet fs f.name (ofChars tail)
            (fs', false, e)
          else
            match rest with
            | v :: _ =>
              let (fs', e) := fsSet fs f.name v
              (fs', true, e)
            | [] => (fs, false, some (.needsArgShort c (ofChars [c])))

/-- `pflag.FlagSet.parseArgs` with interspersed parsing (the default): plain
tokens become positionals, `--` terminates flag parsing, errors stop the walk.
The fuel argument only bounds the recursion so that the definition is a
structural (kernel-reducible) one; every step consumes at least one argument,
so any fuel larger than the argument count (as supplied by `fsParse`) is
never exhausted and the sentinel is unreachable. -/
def parseArgs (fs : FlagSet) (fuel : Nat) (args : List String) :
    FlagSet × Option GoErr :=
  match fuel, args with
  | _, [] => (fs, none)
  | 0, _ :: _ => (fs, some .outOfFuel)
  | fuel + 1, s :: rest =>
    let cs := s.data
    if cs.length = 0 ∨ cs.headD ' ' ≠ '-' ∨ cs.length = 1 then
      parseArgs { fs with args := fs.args ++ [s] } fuel rest
    else if (cs.drop 1).headD ' ' = '-' then
      if cs.length = 2 then ({ fs with args := fs.args ++ rest }, none)
      else
        match parseLongArg fs s rest with
        | (fs', consumed, none) =>
          parseArgs fs' fuel (if consumed then rest.drop 1 else rest)
        | (fs', _, some e) => (fs', some e)
    else
      match parseShortLoop fs rest (cs.drop 1) with
      | (fs', consumed, none) =>
        parseArgs fs' fuel (if consumed then rest.drop 1 else rest)
      | (fs', _, some e) => (fs', some e)

/-- `pflag.FlagSet.Parse`: resets the positionals and walks the arguments. -/
def fsParse (fs : FlagSet) (args : List String) : FlagSet × Option GoErr :=
  parseArgs { fs with args := [] } (args.length + 1) args

/-! ## cli flags (`flag_gen.go` variants and `splitFlagName`) -/

/-- A declared cli flag (`cli.BoolFlag` / `cli.StringFlag`): raw "long, s"
name, usage, candidate environment variables, default value, required mark. -/
structure FlagSpec where
  rawName : String
  usage : String
  envVar : List String
  value : FlagValue
  required : Bool
deriving DecidableEq, Repr

/-- `splitFlagName`: split "long, s" on the comma and trim spaces. The Go code
panics on three or more comma-separated parts; that arity is mapped to empty
names here and excluded by `wellFormedSpecs` wherever a theorem quantifies
over flag declarations (the concrete scenario flags never reach it). -/
def splitFlagName (n : String) : String × String :=
  match strSplit n ',' with
  | [l] => (trimSpace l, "")
  | [l, s] => (trimSpace l, trimSpace s)
  | _ => ("", "")

/-- `Flag.GetName`. -/
def FlagSpec.longName (f : FlagSpec) : String := (splitFlagName f.rawName).1

/-- `Flag.GetShorthand`. -/
def FlagSpec.shortName (f : FlagSpec) : String := (splitFlagName f.rawName).2

/-- Flag declarations on which registration does not panic: each raw name has
at most one comma (`splitFlagName` panics otherwise), each shorthand is at
most one character, long names are distinct, and non-empty shorthands are
distinct (`pflag.FlagSet.AddFlag` panics otherwise). -/
def wellFormedSpecs (specs : List FlagSpec) : Prop :=
  (∀ s ∈ specs, (strSplit s.rawName ',').length ≤ 2) ∧
  (∀ s ∈ specs, s.shortName.data.length ≤ 1) ∧
  (specs.map FlagSpec.longName).Nodup ∧
  specs.Pairwise (fun a b => a.shortName = b.shortName → a.shortName = "")

instance (specs : List FlagSpec) : Decidable (wellFormedSpecs specs) := by
  unfold wellFormedSpecs
  infer_instance

/-- `Flag.Apply`: register the flag on a flag set (`BoolVarP` / `StringVarP`);
`BoolVarP` gives the flag the no-option default value "true". Go's `AddFlag`
panics on a duplicate long name, a duplicate (non-empty) shorthand, or a
shorthand longer than one character; registration here is total, and every
theorem that quantifies over flag declarations carries the panic-freedom
invariant `wellFormedSpecs` so that it says nothing about those panics. -/
def applyFlag (fs : FlagSet) (f : FlagSpec) : FlagSet :=
  { fs with
    formal := fs.formal ++ [{
      name := f.longName
      shorthand := f.shortName
      value := f.value
      noOptDefVal := match f.value with | .b _ => "true" | .s _ => ""
      changed := false }] }

/-- `newFS`: a fresh flag set with all flags applied. -/
def newFS (flags : List FlagSpec) : FlagSet := (flags.foldl applyFlag ⟨[], []⟩)

/-! ## Flag resolvers (`src/unnamed/part_003`) -/

/-- An environment: variable-name/value pairs. -/
abbrev Env := List (String × String)

/-- `FlagResolver.Resolve`: maybe produce a string value for a flag. -/
abbrev Resolver := FlagSpec → Option String

/-- Go `os.LookupEnv` over a modelled environment. -/
def lookupEnv (env : Env) (k : String) : Option String :=
  (env.find? (fun p => p.1 = k)).map (fun p => p.2)

/-- Helper for `EnvVarResolver.Resolve`: first candidate variable present. -/
def envVarLoop (env : Env) : List String → Option String
  | [] => none
  | k :: t =>
    match lookupEnv env (trimLead k "$") with
    | some v => some v
    | none => envVarLoop env t

/-- `EnvVarResolver.Resolve`: try each candidate env var of the flag in order. -/
def envVarResolve (env : Env) : Resolver := fun flag => envVarLoop env flag.envVar

/-- The resolver loop inside `ResolveMissingFlags`: first resolver that
reports found wins (resolvers for a single flag are not combined). -/
def tryResolvers (resolvers : List Resolver) (flag : FlagSpec) : Option String :=
  match resolvers with
  | [] => none
  | r :: rs =>
    match r flag with
    | some v => some v
    | none => tryResolvers rs flag

/-- The inner spec loop of `ResolveMissingFlags` for one visited pflag `f`:
every declared Flag whose name matches is processed (the loop does not stop at
the first match). Returns the updated flag, the last typed-set error of this
flag (Go keeps overwriting `resolverErr`), and the required-and-missing names
appended by this flag. A resolver-produced value is written with
`f.Value.Set`, which does not mark the flag changed. -/
def visitSpecs (resolvers : List Resolver) (f : PFlag) : List FlagSpec →
    PFlag × Option GoErr × List String
  | [] => (f, none, [])
  | spec :: rest =>
    if spec.longName = f.name then
      match tryResolvers resolvers spec with
      | some v =>
        let (nv, e) := valueSet f.value v
        let (fr, er, ms) := visitSpecs resolvers { f with value := nv } rest
        (fr, er.orElse (fun _ => e), ms)
      | none =>
        if spec.required then
          let (fr, er, ms) := visitSpecs resolvers f rest
          (fr, er, spec.longName :: ms)
        else visitSpecs resolvers f rest
    else visitSpecs resolvers f rest

/-- One `VisitAll` callback invocation of `ResolveMissingFlags`: flags already
set on the command line are skipped. -/
def visitFlag (resolvers : List Resolver) (specs : List FlagSpec) (f : PFlag) :
    PFlag × Option GoErr × List String :=
  if f.changed then (f, none, []) else visitSpecs resolvers f specs

/-- One step of the `VisitAll` fold in `ResolveMissingFlags`: look up the
visited flag by name, apply the resolver pass to it, thread the (last)
typed-set error and append the missing names. -/
def visitStep (flags : List FlagSpec) (resolvers : List Resolver)
    (st : FlagSet × Option GoErr × List String) (n : String) :
    FlagSet × Option GoErr × List String :=
  match lookup st.1 n with
  | none => st
  | some f =>
    let (f', e, m) := visitFlag resolvers flags f
    (updateFlag st.1 n (fun _ => f'), e.orElse (fun _ => st.2.1), st.2.2 ++ m)

/-- `ResolveMissingFlags` (src/unnamed/part_003): visit all flags of the set
(in `VisitAll`'s sorted-by-name order), resolving unset ones; a typed-set
failure (the last one) takes priority over the aggregated
missing-required-flags error. -/
def resolveMissingFlags (fs : FlagSet) (flags : List FlagSpec)
    (resolvers : List Resolver) : FlagSet × Option GoErr :=
  let res := ((sortedFormal fs).map (fun f => f.name)).foldl
    (visitStep flags resolvers) (fs, none, [])
  match res.2.1 with
  | some e => (res.1, some e)
  | none =>
    if res.2.2 ≠ [] then (res.1, some (.missingRequired res.2.2)) else (res.1, none)

/-! ## `src/parse.go`: Parse and ErrUnknownFlag.Unparsed -/

/-- `isUnknownFlag`: the pflag error message starts with "unknown flag". -/
def isUnknownFlag (e : GoErr) : Bool := strStarts e.msg "unknown flag"

/-- `isUnknownShorthand`: the message starts with "unknown shorthand flag". -/
def isUnknownShorthand (e : GoErr) : Bool := strStarts e.msg "unknown shorthand flag"

/-- `isUnknownFlagErr`. -/
def isUnknownFlagErr (e : GoErr) : Bool := isUnknownFlag e || isUnknownShorthand e

deriving instance DecidableEq for Except

/-- The error value produced by `Parse` in src/parse.go. -/
inductive CliErr where
  | unknown (cause : GoErr) (args : List String)
  | helpReq
  | raw (e : GoErr)
deriving DecidableEq, Repr

/-- The shorthand re-scan loop of `ErrUnknownFlag.Unparsed`: find the first
single-dash argument in which `name` occurs at a positive position, rebuild
the token from that position and return it with the remaining arguments. -/
def shorthandScan (name : String) : List String → List String
  | [] => []
  | arg :: rest =>
    if ¬ strStarts arg "-" ∨ strStarts arg "--" then shorthandScan name rest
    else
      match subIdx arg name with
      | some ii =>
        if ii > 0 then ("-" ++ ofChars (arg.data.drop ii)) :: rest
        else shorthandScan name rest
      | none => shorthandScan name rest

/-- The `failedArg` extraction of `ErrUnknownFlag.Unparsed`: the suffix of the
cause's message from the first dash, when that dash is at a positive index. -/
def failedArgOf (cause : GoErr) : String :=
  match subIdx cause.msg "-" with
  | some i => if i > 0 then ofChars (cause.msg.data.drop i) else ""
  | none => ""

/-- `ErrUnknownFlag.Unparsed` (src/parse.go): recover the unparsed suffix of
the stored argument vector from the cause's message text. -/
def errUnknownFlagUnparsed (cause : GoErr) (args : List String) : List String :=
  let failedArg : String := failedArgOf cause
  match args.findIdx? (fun a => a = failedArg) with
  | some i => args.drop i
  | none =>
    if isUnknownShorthand cause then shorthandScan (trimLead failedArg "-") args
    else []

/-- `Parse` (src/parse.go): build a flag set from the declared flags, parse
the arguments, classify the parse error, then run the resolver pass; a
resolver-pass failure discards the remainder (Go returns `nil, err`). -/
def cliParse (flags : List FlagSpec) (resolvers : List Resolver)
    (args : List String) : Except GoErr (List String × Option CliErr) :=
  let (fs', perr) := fsParse (newFS flags) args
  let parseError : Option CliErr :=
    match perr with
    | none => none
    | some e =>
      if isUnknownFlag e || isUnknownShorthand e then some (.unknown e args)
      else if e = .help then some .helpReq
      else some (.raw e)
  match resolveMissingFlags fs' flags resolvers with
  | (_, some e) => .error e
  | (fs'', none) => .ok (fs''.args, parseError)

/-! ## `Command.combinedFlags` (src/cli.go) -/

/-- The collision test of `combinedFlags` for one inherited flag: its long
name or (non-empty) shorthand is already registered locally.
`shorthandLookup` looks up nothing for an empty shorthand, as in pflag. -/
def collides (fs : FlagSet) (f : PFlag) : Bool :=
  (lookup fs f.name).isSome || (shorthandLookup fs f.shorthand).isSome

/-- `pflag.FlagSet.AddFlag` (the no-collision path of `combinedFlags`). -/
def addFlag (fs : FlagSet) (f : PFlag) : FlagSet :=
  { fs with formal := fs.formal ++ [f] }

/-- The `VisitAll` body of `combinedFlags`: record colliding names, add the
non-colliding inherited flags to the receiver as it goes. -/
def mergeLoop (fs : FlagSet) (redef : List String) : List PFlag →
    FlagSet × List String
  | [] => (fs, redef)
  | f :: rest =>
    if collides fs f then mergeLoop fs (redef ++ [f.name]) rest
    else mergeLoop (addFlag fs f) redef rest

/-- `Command.combinedFlags`: with no inherited set return the local set;
otherwise merge the inherited flags (visited in sorted-name order) into the
local set, failing when any name was redefined locally. -/
def combinedFlags (cname : String) (fs : FlagSet) (gfs : Option FlagSet) :
    Except GoErr FlagSet :=
  match gfs with
  | none => .ok fs
  | some g =>
    let (fs', redef) := mergeLoop fs [] (sortedFormal g)
    if redef ≠ [] then .error (.misconfigured cname (.redefinedGlobal redef))
    else .ok fs'

/-! ## The command tree (`Command` in src/cli.go)

A command's user-supplied action (`Exec`) is opaque to the engine; it is
modelled as an optional identifier. The default `Options` install the
environment-variable resolver, so the resolver list of every node is
`[envVarResolve env]` for the ambient environment (options propagate from the
root to children that declare none, which covers every tree the claims use).
Writers and usage rendering are outside the engine; emitting a node's usage is
modelled as an outcome naming that node. -/

/-- A `cli.Command`: usage string, local flags, optional action, children. -/
inductive Cmd where
  | mk (usage : String) (flags : List FlagSpec) (exec : Option Nat)
      (subcommands : List Cmd)

/-- Usage field. -/
def Cmd.usage : Cmd → String
  | .mk u _ _ _ => u

/-- Local flags. -/
def Cmd.flags : Cmd → List FlagSpec
  | .mk _ f _ _ => f

/-- Action (opaque identifier; `none` is Go's nil `Exec`). -/
def Cmd.exec : Cmd → Option Nat
  | .mk _ _ e _ => e

/-- Children. -/
def Cmd.subs : Cmd → List Cmd
  | .mk _ _ _ s => s

/-- `Command.name`: the first space-delimited token of the usage string. -/
def Cmd.cname (c : Cmd) : String := (strSplit c.usage ' ').headD ""

/-- `Command.Setup`'s wiring loop: `setParent` is called once per child, and
each call evaluates `parent.combinedFlags()`, which mutates the parent's flag
set when the parent has an inherited set. Only the number of children
matters for this loop. -/
def wireChildren (cname : String) (fs : FlagSet) (gfs : Option FlagSet) :
    Nat → Except GoErr FlagSet
  | 0 => .ok fs
  | n + 1 =>
    match combinedFlags cname fs gfs with
    | .error e => .error e
    | .ok fs' => wireChildren cname fs' gfs n

/-- `Command.Setup`: validate the usage string and the action/children shape,
rebuild the local flag set, then wire the children (each child's inherited
set becomes an alias of this node's flag set). -/
def setupCmd (c : Cmd) (gfs : Option FlagSet) : Except GoErr FlagSet :=
  if c.usage = "" then .error (.misconfigured c.cname .usageMustBeDefined)
  else if c.exec.isNone && c.subs.isEmpty then
    .error (.misconfigured c.cname .mustDefineEither)
  else if c.exec.isSome && !c.subs.isEmpty then
    .error (.misconfigured c.cname .cannotDefineBoth)
  else wireChildren c.cname (newFS c.flags) gfs c.subs.length

/-- Outcome of the unknown-flag recovery block in `Command.Parse`: Go slices
`args[(ii-1):]`, which panics when the failing token is the first argument. -/
inductive RecovOut where
  | panicked
  | recovered (args : List String)
deriving DecidableEq, Repr

/-- The unknown-flag recovery in `Command.Parse`: extract the failing token
from the error message, find it in the arguments, and keep the slice from the
preceding argument on (out-of-range when the token is at index 0). -/
def recoverArgs (msg : String) (args : List String) : RecovOut :=
  match subIdx msg "-" with
  | some i =>
    if i > 0 then
      let failedArg := ofChars (msg.data.drop i)
      match args.findIdx? (fun a => a = failedArg) with
      | some ii => if ii = 0 then .panicked else .recovered (args.drop (ii - 1))
      | none => .recovered args
    else .recovered args
  | none => .recovered args

/-- A node's mutable parse-time state: its flag set and its inherited set. -/
structure NodeSt where
  fs : FlagSet
  gfs : Option FlagSet
deriving DecidableEq, Repr

/-- Result kind of `Command.Parse`. -/
inductive POut where
  | ok
  | err (e : GoErr)
  | panicked
deriving DecidableEq, Repr

/-- Full result of `Command.Parse` on a node: the outcome, the node's own
state, and the node recorded in the receiver's `parsed` field (`none` for the
node itself, `some i` for its i-th child — `Parse` only ever records the
immediate child there). -/
structure PRes where
  out : POut
  self : NodeSt
  parsed : Option (Nat × NodeSt)
deriving DecidableEq, Repr

/-- First child whose name equals the given token (`Command.Parse` routing). -/
def findChildIdx (subs : List Cmd) (n : String) : Option Nat :=
  subs.findIdx? (fun c => c.cname = n)

/-- `Command.Parse` for one fresh `Execute` call on a fresh tree. The caller
passes the value the node's aliased inherited set has when the node reads it
(the parent's flag set after the parent finished parsing and resolving).
Stages: `Setup`; `fs.Parse` with the unknown-flag recovery (deferring the
error) and the help signal deferral; `ResolveMissingFlags` (fatal); routing
to the first child named by the first positional, recursing on `args[1:]`;
otherwise the node itself is the parsed node. The fuel bounds the recursion
structurally; every recursive step strictly shortens the argument vector
(recovery only drops arguments, and routing slices off the first one), so the
fuel supplied by `executeCmd` is never exhausted. -/
def parseCmd (env : Env) (fuel : Nat) (c : Cmd) (gfs : Option FlagSet)
    (args : List String) : PRes :=
  match fuel with
  | 0 => ⟨.err .outOfFuel, ⟨newFS c.flags, gfs⟩, none⟩
  | fuel + 1 =>
  match setupCmd c gfs with
  | .error e => ⟨.err e, ⟨newFS c.flags, gfs⟩, none⟩
  | .ok fs₁ =>
    let pr := fsParse fs₁ args
    let fs₂ := pr.1
    let stage : Except PRes (Option GoErr × Bool × List String) :=
      match pr.2 with
      | none => .ok (none, false, args)
      | some e =>
        if isUnknownFlagErr e then
          match recoverArgs e.msg args with
          | .panicked => .error ⟨.panicked, ⟨fs₂, gfs⟩, none⟩
          | .recovered args' => .ok (some e, false, args')
        else if e = .help then .ok (some e, true, args)
        else .error ⟨.err e, ⟨fs₂, gfs⟩, none⟩
    match stage with
    | .error r => r
    | .ok (parseError, helpRequested, args') =>
      match resolveMissingFlags fs₂ c.flags [envVarResolve env] with
      | (fs₃, some e) => ⟨.err e, ⟨fs₃, gfs⟩, none⟩
      | (fs₃, none) =>
        if c.subs.length > 0 then
          match findChildIdx c.subs (fsArg0 fs₃) with
          | some i =>
            match c.subs.get? i with
            | some child =>
              -- Go slices `args[1:]`, which panics when the slice is empty
              -- (only reachable by routing on an empty-named child).
              if args'.length = 0 then ⟨.panicked, ⟨fs₃, gfs⟩, none⟩
              else
                let res := parseCmd env fuel child (some fs₃) (args'.drop 1)
                ⟨res.out, ⟨fs₃, gfs⟩, some (i, res.self)⟩
            | none => ⟨.err .noSubcommand, ⟨fs₃, gfs⟩, none⟩
          | none =>
            if helpRequested then ⟨.err .help, ⟨fs₃, gfs⟩, none⟩
            else ⟨.err .noSubcommand, ⟨fs₃, gfs⟩, none⟩
        else
          match parseError with
          | some e => ⟨.err e, ⟨fs₃, gfs⟩, none⟩
          | none => ⟨.ok, ⟨fs₃, gfs⟩, none⟩

/-- Outcome of `Command.Execute`: an action ran with the given combined flag
context, a node's usage was printed with success, a failure was returned, or
the process panicked. `who` is `none` for the root and `some i` for the root's
i-th child — the only nodes the root's `parsed` field can designate. -/
inductive ExecOut where
  | ran (who : Option Nat) (ctx : FlagSet)
  | printedHelp (who : Option Nat)
  | failed (e : GoErr)
  | panicked
deriving DecidableEq, Repr

/-- `Command.Execute`: drive `Parse`; print the parsed node's usage on the
help signal; otherwise build the parsed node's combined flags and invoke its
action (a nil action is a Go nil-function-call panic). -/
def executeCmd (c : Cmd) (env : Env) (args : List String) : ExecOut :=
  let res := parseCmd env (args.length + 1) c none args
  match res.out with
  | .panicked => .panicked
  | .err e =>
    if e = .help then .printedHelp (res.parsed.map (fun p => p.1))
    else .failed e
  | .ok =>
    let who : Option Nat := res.parsed.map (fun p => p.1)
    let st : NodeSt :=
      match res.parsed with
      | none => res.self
      | some (_, cst) => cst
    let pcmd : Option Cmd :=
      match res.parsed with
      | none => some c
      | some (i, _) => c.subs.get? i
    match combinedFlags ((pcmd.map Cmd.cname).getD "") st.fs st.gfs with
    | .error e => .failed e
    | .ok flags =>
      match pcmd.bind Cmd.exec with
      | none => .panicked
      | some _ => .ran who flags

/-- `pflag.FlagSet.GetBool`, as used through the `Context` handed to actions. -/
def fsGetBool (fs : FlagSet) (n : String) : Except String Bool :=
  match lookup fs n with
  | none => .error ("flag accessed but not defined: " ++ n)
  | some f =>
    match f.value with
    | .b v => .ok v
    | .s _ => .error "trying to get bool value of flag of type string"

/-! ## Notions used by the statements of the general theorems -/

/-- Whether a value slot is the bool variant (the variant whose `Set` can
fail); `Value.Set` never changes a slot's variant. -/
def FlagValue.isBoolT : FlagValue → Bool
  | .b _ => true
  | .s _ => false

/-- The characteristics of a registered flag that the resolver pass reads but
never writes: name, changed mark, and value variant. -/
def flagSig (f : PFlag) : String × Bool × Bool := (f.name, f.changed, f.value.isBoolT)

/-- The data-model invariant of a flag set: distinct long names, and distinct
shorthands among the flags that declare one. -/
def pairwiseDistinct (l : List PFlag) : Prop :=
  l.Pairwise (fun a b => a.name ≠ b.name ∧ (a.shorthand = b.shorthand → a.shorthand = ""))

instance (l : List PFlag) : Decidable (pairwiseDistinct l) := by
  unfold pairwiseDistinct
  infer_instance

/-- A required flag that stays unresolved: some registered flag named `n` was
not set on the command line and some declared Flag of that name is required
and gets no value from any resolver. -/
def missPred (fs : FlagSet) (specs : List FlagSpec) (resolvers : List Resolver)
    (n : String) : Prop :=
  ∃ f ∈ fs.formal, f.name = n ∧ f.changed = false ∧
    ∃ s ∈ specs, s.longName = n ∧ tryResolvers resolvers s = none ∧ s.required = true

instance (fs : FlagSet) (specs : List FlagSpec) (resolvers : List Resolver)
    (n : String) : Decidable (missPred fs specs resolvers n) := by
  unfold missPred
  infer_instance

/-- The missing-name contribution of one visited flag, as a function of its
signature (used to characterise the aggregate error). -/
def sigContrib (flags : List FlagSpec) (resolvers : List Resolver)
    (o : Option (String × Bool × Bool)) : List String :=
  match o with
  | none => []
  | some (nm, ch, _) =>
    if ch then []
    else (flags.filter (fun s => decide (s.longName = nm) &&
      (tryResolvers resolvers s).isNone && s.required)).map FlagSpec.longName

/-- No resolver-produced value for a flag with this signature is rejected by
its typed slot. -/
def okSigP (flags : List FlagSpec) (resolvers : List Resolver)
    (sg : String × Bool × Bool) : Prop :=
  sg.2.1 = false → ∀ s ∈ flags, s.longName = sg.1 → ∀ v,
    tryResolvers resolvers s = some v → sg.2.2 = true → parseBool v ≠ none

/-- Some resolver-produced value for a flag with this signature is rejected
by its (bool) typed slot. -/
def failSigP (flags : List FlagSpec) (resolvers : List Resolver)
    (sg : String × Bool × Bool) : Prop :=
  sg.2.1 = false ∧ sg.2.2 = true ∧ ∃ s ∈ flags, s.longName = sg.1 ∧
    ∃ v, tryResolvers resolvers s = some v ∧ parseBool v = none

/-! ## Concrete scenarios (the flags and command trees of the repository's
tests: TestParse / TestParseUnknownFlag in src/unnamed/part_000, the
subcommand tests in src/cli_test.go and TestFlagParsing in src/flag_test.go) -/

/-- The bool flag `test, t` of TestParseUnknownFlag. -/
def boolTestFlag : FlagSpec := ⟨"test, t", "", [], .b false, false⟩

/-- The string flag `test, t` of TestParse. -/
def strTestFlag : FlagSpec := ⟨"test, t", "", [], .s "", false⟩

/-- The root bool flag `debug, d` of the subcommand tests. -/
def dbgFlag : FlagSpec := ⟨"debug, d", "Enable debug logging", [], .b false, false⟩

/-- The flagless leaf subcommand of the subcommand tests. -/
def subLeaf : Cmd := .mk "subcommand [flags]" [] (some 1) []

/-- The root of Test_Subcommands_InheritGlobalFlags and
Test_Subcommands_IgnoresGlobalFlagOrder. -/
def c2root : Cmd := .mk "root [flags] [command]" [dbgFlag] none [subLeaf]

/-- The grandchild leaf of Test_NestedSubcommands. -/
def grandLeaf : Cmd := .mk "subcommand" [] (some 2) []

/-- The middle router node of Test_NestedSubcommands. -/
def nestedCmd : Cmd := .mk "nested" [] none [grandLeaf]

/-- The root of Test_NestedSubcommands. -/
def c3root : Cmd := .mk "root [flags] [command]" [dbgFlag] none [nestedCmd]

/-- A local flag that redefines the inherited long name `debug`. -/
def dbgLocal : FlagSpec := ⟨"debug", "", [], .b false, false⟩

/-- A child that locally redefines the inherited `debug` flag. -/
def collChild : Cmd := .mk "child [flags]" [dbgLocal] (some 1) []

/-- A root whose child redefines an inherited flag. -/
def c5root : Cmd := .mk "root [flags] [command]" [dbgFlag] none [collChild]

/-- First leaf child for the help-routing scenario. -/
def subHelp : Cmd := .mk "sub [flags]" [] (some 1) []

/-- Second leaf child for the help-routing scenario. -/
def otherHelp : Cmd := .mk "other [flags]" [] (some 2) []

/-- A two-child root for the help-routing scenario. -/
def c6root : Cmd := .mk "root [flags] [command]" [dbgFlag] none [subHelp, otherHelp]

/-- The required string flag `region, r` of TestFlagParsing. -/
def regionReq : FlagSpec := ⟨"region, r", "AWS Region to target", ["AWS_REGION"], .s "", true⟩

/-- A leaf command with a required flag. -/
def c6bad : Cmd := .mk "echo [flags]" [regionReq] (some 1) []

/-- A second required string flag, for the two-missing-flags scenario. -/
def tokenReq : FlagSpec := ⟨"token", "", [], .s "", true⟩

/-- A non-required bool flag whose resolver-produced value can be rejected. -/
def confFlag : FlagSpec := ⟨"conf", "", [], .b false, false⟩

/-- A resolver producing the fixed value `v` for the `conf` flag only. -/
def constConfResolver (v : String) : Resolver :=
  fun spec => if spec.longName = "conf" then some v else none

/-! # Theorems -/

/-- C8: for a leaf command declaring the string flag `test`/`t`, parsing
`["--test","flag","arg"]` succeeds with positional remainder `["arg"]`, and
parsing `["-t","flag","arg"]` also succeeds with remainder `["arg"]` — in both
forms the flag consumes its value token and no parse error is produced. -/
theorem c8_leaf_remainder :
    cliParse [strTestFlag] [] ["--test", "flag", "arg"] = .ok (["arg"], none) ∧
    cliParse [strTestFlag] [] ["-t", "flag", "arg"] = .ok (["arg"], none) := by
  decide

/-- C1 (evaluation at the claimed inputs, including the failing one): for the
bool flag `test`/`t`, the recovered tails are `["--unknown","flag"]`,
`["-u","flag"]` and `["-ut","flag1"]` as claimed, but for the chained
shorthand input `["-tu","flag1"]` the code returns `["-u","flag1"]` — the
token is rebuilt from the unknown-shorthand position, dropping the already
consumed `t` — while the claim and TestParseUnknownFlag require
`["-tu","flag1"]`. -/
theorem c1_unknownFlag_unparsed_eval :
    (cliParse [boolTestFlag] [] ["--test", "--unknown", "flag"] =
        .ok ([], some (.unknown (.unknownFlag "unknown")
          ["--test", "--unknown", "flag"])) ∧
      errUnknownFlagUnparsed (.unknownFlag "unknown")
        ["--test", "--unknown", "flag"] = ["--unknown", "flag"]) ∧
    (cliParse [boolTestFlag] [] ["-t", "-u", "flag"] =
        .ok ([], some (.unknown (.unknownShorthand 'u' "u") ["-t", "-u", "flag"])) ∧
      errUnknownFlagUnparsed (.unknownShorthand 'u' "u") ["-t", "-u", "flag"] =
        ["-u", "flag"]) ∧
    (cliParse [boolTestFlag] [] ["-ut", "flag1"] =
        .ok ([], some (.unknown (.unknownShorthand 'u' "ut") ["-ut", "flag1"])) ∧
      errUnknownFlagUnparsed (.unknownShorthand 'u' "ut") ["-ut", "flag1"] =
        ["-ut", "flag1"]) ∧
    (cliParse [boolTestFlag] [] ["-tu", "flag1"] =
        .ok ([], some (.unknown (.unknownShorthand 'u' "u") ["-tu", "flag1"])) ∧
      errUnknownFlagUnparsed (.unknownShorthand 'u' "u") ["-tu", "flag1"] =
        ["-u", "flag1"]) := by
  decide

/-- C2 (evaluation at the claimed inputs): with the root bool flag
`--debug`/`-d` and a flagless subcommand, `["--debug","subcommand"]` runs the
subcommand's action with `debug = true` readable in its Context, but
`["subcommand","--debug"]` panics: the subcommand re-parses the inherited
`--debug` token, fails with an unknown-flag error, and the recovery block
slices `args[(ii-1):]` with `ii = 0`, a slice-bounds panic.  The claimed
order-independence (also asserted by Test_Subcommands_InheritGlobalFlags)
fails on the code. -/
theorem c2_globalFlagOrder_eval :
    (∃ ctx, executeCmd c2root [] ["--debug", "subcommand"] = .ran (some 0) ctx ∧
        fsGetBool ctx "debug" = .ok true) ∧
    executeCmd c2root [] ["subcommand", "--debug"] = .panicked :=
  ⟨⟨⟨[⟨"debug", "d", .b true, "true", true⟩], ["subcommand"]⟩, by decide, by decide⟩,
    by decide⟩

/-- C3 (evaluation at the test's input): three-level nesting fails.  `Parse`
hands the subcommand `args[1:]` of the raw argument vector, so for
`["--debug","nested","subcommand"]` the middle node receives
`["nested","subcommand"]`, sees its own name as first positional, matches no
child and fails with `no subcommand specified`; the grandchild action claimed
(and expected by Test_NestedSubcommands) never runs. -/
theorem c3_nested_eval :
    executeCmd c3root [] ["--debug", "nested", "subcommand"] =
      .failed .noSubcommand := by
  decide

/-- C6 counterexample: help requested anywhere in the args does not always
yield success.  First, a required flag with no resolver value makes the
resolver pass fail before the help signal is honoured, and `Execute` returns
that error.  Second, even with resolution succeeding at every node, the args
`["sub","--debug","--help"]` make the child re-parse the inherited `--debug`
token before reaching `--help`; the unknown-flag recovery slices
`args[(ii-1):]` with `ii = 0` and the process panics instead of printing the
subcommand's usage. -/
theorem c6_counterexample :
    executeCmd c6bad [] ["--help"] = .failed (.missingRequired ["region"]) ∧
    executeCmd c6root [] ["sub", "--debug", "--help"] = .panicked := by
  decide

/-- C6 (amended): whenever `Parse` completes with the help signal — which
resolution failures, deferred unknown-flag errors and the recovery panic can
pre-empt — `Execute` invokes no action, returns success, and emits the usage
of the node the root recorded as matched, for every command tree, environment
and argument vector; in the cited scenario (`subcommand --help` with
resolution succeeding) the signal does complete and the usage emitted is the
subcommand's own — `sub` for `sub --help`, `other` for `other --help` — and
the root's for a bare `--help`, never an ancestor's. -/
theorem c6_help_routing :
    (∀ (c : Cmd) (env : Env) (args : List String),
      (parseCmd env (args.length + 1) c none args).out = .err .help →
      executeCmd c env args = .printedHelp
        ((parseCmd env (args.length + 1) c none args).parsed.map (fun p => p.1))) ∧
    executeCmd c6root [] ["sub", "--help"] = .printedHelp (some 0) ∧
    executeCmd c6root [] ["other", "--help"] = .printedHelp (some 1) ∧
    executeCmd c6root [] ["--help"] = .printedHelp none := by
  refine ⟨?_, by decide, by decide, by decide⟩
  intro c env args h
  unfold executeCmd
  simp only [h]
  rw [if_pos trivial]

/-- Witness for C6: on `sub --help` the parse completes with the help signal
and `Execute` prints the usage of the node recorded as matched (the child
`sub`). -/
theorem c6_help_routing_witness :
    (parseCmd [] 3 c6root none ["sub", "--help"]).out = .err .help ∧
    executeCmd c6root [] ["sub", "--help"] = .printedHelp
      ((parseCmd [] 3 c6root none ["sub", "--help"]).parsed.map (fun p => p.1)) :=
  ⟨by decide, c6_help_routing.1 c6root [] ["sub", "--help"] (by decide)⟩

/-- Helper: with no inherited flag set, the child-wiring loop of `Setup`
never fails and leaves the flag set unchanged. -/
theorem wireChildren_ok_none (cname : String) (fs : FlagSet) :
    ∀ k, wireChildren cname fs none k = .ok fs := by
  intro k
  induction k with
  | zero => rfl
  | succ n ih => simpa [wireChildren, combinedFlags] using ih

/-- Helper: the shorthand re-scan of `Unparsed` finds nothing when no
single-dash argument contains the name with first occurrence at a positive
position. -/
theorem shorthandScan_nil (name : String) :
    ∀ args : List String,
    (∀ a ∈ args, strStarts a "-" = true → strStarts a "--" = false →
      ∀ i, subIdx a name = some i → i = 0) →
    shorthandScan name args = [] := by
  intro args
  induction args with
  | nil => intro _; rfl
  | cons a rest ih =>
    intro h
    have htail : ∀ x ∈ rest, strStarts x "-" = true → strStarts x "--" = false →
        ∀ i, subIdx x name = some i → i = 0 :=
      fun x hx => h x (List.mem_cons_of_mem _ hx)
    by_cases hc : ¬ strStarts a "-" = true ∨ strStarts a "--" = true
    · rw [shorthandScan, if_pos hc]
      exact ih htail
    · push_neg at hc
      obtain ⟨h1, h2⟩ := hc
      have h2' : strStarts a "--" = false := by simpa using h2
      rw [shorthandScan, if_neg (by push_neg; exact ⟨h1, h2⟩)]
      cases hs : subIdx a name with
      | none =>
        simp only [hs]
        exact ih htail
      | some ii =>
        have hz := h a (List.mem_cons_self a rest) h1 h2' ii hs
        subst hz
        simp only [hs]
        rw [if_neg (by omega)]
        exact ih htail

/-- C10 (amended): `Unparsed` is total and returns the empty slice whenever
no stored argument equals the extracted token (the suffix of the cause
message from its first dash when that dash sits at a positive index, the
empty string otherwise) and, for unknown-shorthand causes, no single-dash
argument contains the extracted name (the token minus one leading dash) with
first occurrence at a positive position. -/
theorem c10_unparsed_empty (cause : GoErr) (args : List String)
    (h1 : ∀ a ∈ args, a ≠ failedArgOf cause)
    (h2 : isUnknownShorthand cause = true → ∀ a ∈ args,
      strStarts a "-" = true → strStarts a "--" = false →
      ∀ i, subIdx a (trimLead (failedArgOf cause) "-") = some i → i = 0) :
    errUnknownFlagUnparsed cause args = [] := by
  unfold errUnknownFlagUnparsed
  have hidx : args.findIdx? (fun a => a = failedArgOf cause) = none := by
    rw [List.findIdx?_eq_none_iff]
    intro x hx
    simpa using h1 x hx
  simp only [hidx]
  by_cases hsh : isUnknownShorthand cause = true
  · simp only [hsh, if_true]
    exact shorthandScan_nil _ args (h2 hsh)
  · simp only [Bool.not_eq_true] at hsh
    simp [hsh]

/-- C10 counterexample: a cause message with no dash at all makes the
extracted token empty, and an empty-string stored argument then matches it,
so `Unparsed` returns a non-empty suffix — refuting the claim that a
dash-free cause message always yields the empty slice. -/
theorem c10_counterexample :
    subIdx (GoErr.invalidSyntax "ParseBool" "x").msg "-" = none ∧
    errUnknownFlagUnparsed (.invalidSyntax "ParseBool" "x") [""] = [""] := by
  decide

/-- Witness for C10: a concrete unknown-flag cause whose token matches no
argument yields the empty slice. -/
theorem c10_unparsed_empty_witness :
    (∀ a ∈ ["plain", "args"], a ≠ failedArgOf (.unknownFlag "zz")) ∧
    errUnknownFlagUnparsed (.unknownFlag "zz") ["plain", "args"] = [] :=
  ⟨by decide,
    c10_unparsed_empty _ _ (by decide) (fun h => absurd h (by decide))⟩

/-- Helper: long-name lookup after `AddFlag`. -/
theorem lookup_addFlag (fs : FlagSet) (f : PFlag) (n : String) :
    lookup (addFlag fs f) n =
      (lookup fs n).or (if f.name = n then some f else none) := by
  simp only [lookup, addFlag, List.find?_append]
  by_cases h : f.name = n <;> simp [List.find?, h]

/-- Helper: shorthand lookup after `AddFlag` (for a non-empty shorthand). -/
theorem shorthandLookup_addFlag (fs : FlagSet) (f : PFlag) (sh : String)
    (hsh : sh ≠ "") :
    shorthandLookup (addFlag fs f) sh =
      (shorthandLookup fs sh).or (if f.shorthand = sh then some f else none) := by
  simp only [shorthandLookup, addFlag, List.find?_append, if_neg hsh]
  by_cases h : f.shorthand = sh <;> simp [List.find?, h]

/-- Helper: adding a flag with a different name (and no shared usable
shorthand) does not change whether another flag collides. -/
theorem collides_addFlag (fs : FlagSet) (g f : PFlag)
    (hn : f.name ≠ g.name) (hs : g.shorthand = f.shorthand → g.shorthand = "") :
    collides (addFlag fs g) f = collides fs f := by
  unfold collides
  have h1 : lookup (addFlag fs g) f.name = lookup fs f.name := by
    rw [lookup_addFlag, if_neg (fun he => hn he.symm), Option.or_none]
  by_cases hsh : f.shorthand = ""
  · rw [h1]
    simp [shorthandLookup, hsh]
  · have hgs : g.shorthand ≠ f.shorthand := fun he => hsh (he ▸ hs he)
    rw [h1, shorthandLookup_addFlag fs g f.shorthand hsh, if_neg hgs, Option.or_none]

/-- Helper: the merge loop of `combinedFlags`, characterised against the
collision status relative to the receiver it started from (the relation
`pairwiseDistinct` keeps later collision checks unaffected by the flags
added earlier in the loop). -/
theorem mergeLoop_spec (P : PFlag → Bool) :
    ∀ (L : List PFlag) (fs : FlagSet) (redef : List String),
    pairwiseDistinct L →
    (∀ f ∈ L, collides fs f = P f) →
    mergeLoop fs redef L =
      (⟨fs.formal ++ L.filter (fun f => !P f), fs.args⟩,
        redef ++ (L.filter P).map PFlag.name) := by
  intro L
  induction L with
  | nil => intro fs redef _ _; simp [mergeLoop]
  | cons f rest ih =>
    intro fs redef hp hP
    have hpc := List.pairwise_cons.mp hp
    have hf := hP f (List.mem_cons_self f rest)
    by_cases hc : P f = true
    · rw [mergeLoop, if_pos (by rw [hf, hc])]
      rw [ih fs (redef ++ [f.name]) hpc.2
        (fun x hx => hP x (List.mem_cons_of_mem _ hx))]
      simp [List.filter_cons, hc]
    · have hc' : P f = false := by simpa using hc
      rw [mergeLoop, if_neg (by rw [hf, hc']; exact Bool.false_ne_true)]
      rw [ih (addFlag fs f) redef hpc.2 ?_]
      · simp [addFlag, List.filter_cons, hc']
      · intro x hx
        have hR := hpc.1 x hx
        rw [collides_addFlag fs f x (fun he => hR.1 he.symm) hR.2]
        exact hP x (List.mem_cons_of_mem _ hx)

/-- Helper: membership transfers through the sorted `VisitAll` view. -/
theorem mem_sortedFormal (fs : FlagSet) (f : PFlag) :
    f ∈ sortedFormal fs ↔ f ∈ fs.formal := by
  unfold sortedFormal
  exact List.mem_insertionSort _

/-- C5: merging inherited flags into a child's local scope.  If any inherited
flag collides with the local scope by long name or (non-empty) shorthand,
`combinedFlags` fails with the redefined-global-flags `Misconfigured` error,
whose name list holds exactly the names of the colliding inherited flags;
absent any collision it succeeds and the combined scope contains every local
and every inherited flag. -/
theorem c5_redefined_global (cname : String) (fs g : FlagSet)
    (hp : pairwiseDistinct g.formal) :
    ((∃ f ∈ g.formal, collides fs f = true) →
      ∃ names, combinedFlags cname fs (some g) =
          .error (.misconfigured cname (.redefinedGlobal names)) ∧
        ∀ n, (n ∈ names ↔ ∃ f ∈ g.formal, f.name = n ∧ collides fs f = true)) ∧
    ((∀ f ∈ g.formal, collides fs f = false) →
      ∃ fs', combinedFlags cname fs (some g) = .ok fs' ∧
        (∀ f ∈ fs.formal, f ∈ fs'.formal) ∧ (∀ f ∈ g.formal, f ∈ fs'.formal)) := by
  have hperm : List.Perm (sortedFormal g) g.formal := List.perm_insertionSort _ _
  have hsorted : pairwiseDistinct (sortedFormal g) := by
    refine List.Pairwise.perm hp hperm.symm ?_
    intro x y hxy
    exact ⟨fun he => hxy.1 he.symm,
      fun he => he ▸ hxy.2 he.symm⟩
  have hspec := mergeLoop_spec (fun f => collides fs f) (sortedFormal g) fs []
    hsorted (fun _ _ => rfl)
  constructor
  · rintro ⟨f₀, hf₀, hcoll⟩
    have hfL : f₀ ∈ sortedFormal g := (mem_sortedFormal g f₀).mpr hf₀
    have hmem : f₀.name ∈ ((sortedFormal g).filter
        (fun f => collides fs f)).map PFlag.name :=
      List.mem_map_of_mem _ (List.mem_filter.mpr ⟨hfL, hcoll⟩)
    refine ⟨((sortedFormal g).filter (fun f => collides fs f)).map PFlag.name, ?_, ?_⟩
    · rw [combinedFlags, hspec]
      simp only [List.nil_append]
      rw [if_pos (List.ne_nil_of_mem hmem)]
    · intro n
      simp only [List.mem_map, List.mem_filter, mem_sortedFormal]
      constructor
      · rintro ⟨f, ⟨hfg, hfc⟩, hfn⟩
        exact ⟨f, hfg, hfn, hfc⟩
      · rintro ⟨f, hfg, hfn, hfc⟩
        exact ⟨f, ⟨hfg, hfc⟩, hfn⟩
  · intro hnone
    have hfilter : (sortedFormal g).filter (fun f => collides fs f) = [] := by
      rw [List.filter_eq_nil_iff]
      intro f hf
      rw [hnone f ((mem_sortedFormal g f).mp hf)]
      exact Bool.false_ne_true
    have hfilter2 : (sortedFormal g).filter (fun f => !collides fs f) =
        sortedFormal g := by
      rw [List.filter_eq_self]
      intro f hf
      rw [hnone f ((mem_sortedFormal g f).mp hf)]
      rfl
    refine ⟨⟨fs.formal ++ sortedFormal g, fs.args⟩, ?_, ?_, ?_⟩
    · rw [combinedFlags, hspec]
      simp only [hfilter, hfilter2, List.map_nil, List.nil_append]
      rw [if_neg (by simp)]
    · intro f hf
      exact List.mem_append_left _ hf
    · intro f hf
      exact List.mem_append_right _ ((mem_sortedFormal g f).mpr hf)

/-- Helper: `Value.Set` never changes a slot's variant. -/
theorem valueSet_isBoolT (fv : FlagValue) (v : String) :
    ((valueSet fv v).1).isBoolT = fv.isBoolT := by
  cases fv with
  | b x => cases hp : parseBool v <;> simp [valueSet, hp, FlagValue.isBoolT]
  | s x => simp [valueSet, FlagValue.isBoolT]

/-- Helper: the only `Value.Set` failure of the modelled variants is the
bool-parse failure. -/
theorem valueSet_err_shape (fv : FlagValue) (v : String) :
    ∀ e, (valueSet fv v).2 = some e → e = .invalidSyntax "ParseBool" v := by
  intro e
  cases fv with
  | b x =>
    cases hp : parseBool v with
    | none =>
      simp only [valueSet, hp, Option.some.injEq]
      exact fun h => h.symm
    | some b => simp [valueSet, hp]
  | s x => simp [valueSet]

/-- Helper: `Value.Set` succeeds unless the slot is bool and the string does
not parse as a bool. -/
theorem valueSet_err_none (fv : FlagValue) (v : String)
    (h : fv.isBoolT = true → parseBool v ≠ none) :
    (valueSet fv v).2 = none := by
  cases fv with
  | b x =>
    cases hp : parseBool v with
    | none => exact absurd hp (h rfl)
    | some b => simp [valueSet, hp]
  | s x => simp [valueSet]

/-- Helper: `Value.Set` fails on a bool slot when the string does not parse. -/
theorem valueSet_err_some (fv : FlagValue) (v : String)
    (hb : fv.isBoolT = true) (hp : parseBool v = none) :
    (valueSet fv v).2 = some (.invalidSyntax "ParseBool" v) := by
  cases fv with
  | b x => simp [valueSet, hp]
  | s x => simp [FlagValue.isBoolT] at hb

/-- Helper: the spec loop of the resolver pass never changes the visited
flag's signature. -/
theorem visitSpecs_sig (r : List Resolver) :
    ∀ (specs : List FlagSpec) (f : PFlag),
    flagSig (visitSpecs r f specs).1 = flagSig f := by
  intro specs
  induction specs with
  | nil => intro f; rfl
  | cons spec rest ih =>
    intro f
    rw [visitSpecs]
    by_cases hn : spec.longName = f.name
    · rw [if_pos hn]
      cases htr : tryResolvers r spec with
      | some v =>
        rcases hvs : valueSet f.value v with ⟨nv, e⟩
        rcases hrec : visitSpecs r { f with value := nv } rest with ⟨fr, er, ms⟩
        have hs := ih { f with value := nv }
        rw [hrec] at hs
        simp only [hvs, hrec]
        rw [hs]
        have : nv.isBoolT = f.value.isBoolT := by
          have := valueSet_isBoolT f.value v
          rw [hvs] at this
          exact this
        simp [flagSig, this]
      | none =>
        by_cases hreq : spec.required = true
        · rcases hrec : visitSpecs r f rest with ⟨fr, er, ms⟩
          have hs := ih f
          rw [hrec] at hs
          simp only [hreq, if_true, hrec]
          exact hs
        · have hreq' : spec.required = false := by simpa using hreq
          simp only [hreq', Bool.false_eq_true, if_false]
          exact ih f
    · rw [if_neg hn]
      exact ih f

/-- Helper: the missing names appended for one visited flag are exactly the
required, unresolved declared Flags matching its name. -/
theorem visitSpecs_miss (r : List Resolver) :
    ∀ (specs : List FlagSpec) (f : PFlag),
    (visitSpecs r f specs).2.2 = (specs.filter (fun s =>
      decide (s.longName = f.name) && (tryResolvers r s).isNone &&
      s.required)).map FlagSpec.longName := by
  intro specs
  induction specs with
  | nil => intro f; rfl
  | cons spec rest ih =>
    intro f
    rw [visitSpecs]
    by_cases hn : spec.longName = f.name
    · rw [if_pos hn]
      cases htr : tryResolvers r spec with
      | some v =>
        rcases hvs : valueSet f.value v with ⟨nv, e⟩
        rcases hrec : visitSpecs r { f with value := nv } rest with ⟨fr, er, ms⟩
        have hs := ih { f with value := nv }
        rw [hrec] at hs
        have hcond : (decide (spec.longName = f.name) &&
            (tryResolvers r spec).isNone && spec.required) = false := by
          simp [htr]
        simp only [hvs, hrec, List.filter_cons, hcond]
        simpa using hs
      | none =>
        by_cases hreq : spec.required = true
        · rcases hrec : visitSpecs r f rest with ⟨fr, er, ms⟩
          have hs := ih f
          rw [hrec] at hs
          have hcond : (decide (spec.longName = f.name) &&
              (tryResolvers r spec).isNone && spec.required) = true := by
            simp [hn, htr, hreq]
          simp only [hreq, if_true, hrec, List.filter_cons, hcond]
          simp [htr, hn]
          exact hs
        · have hreq' : spec.required = false := by simpa using hreq
          have hcond : (decide (spec.longName = f.name) &&
              (tryResolvers r spec).isNone && spec.required) = false := by
            simp [hreq']
          simp only [hreq', Bool.false_eq_true, if_false, List.filter_cons, hcond]
          simpa using ih f
    · rw [if_neg hn]
      have hcond : (decide (spec.longName = f.name) &&
          (tryResolvers r spec).isNone && spec.required) = false := by
        simp [hn]
      rw [List.filter_cons, hcond]
      simpa using ih f

/-- Helper: the spec loop produces no typed-set error when every
resolver-produced value for the visited flag's name parses at its slot. -/
theorem visitSpecs_err_none (r : List Resolver) :
    ∀ (specs : List FlagSpec) (f : PFlag),
    (∀ s ∈ specs, s.longName = f.name → ∀ v, tryResolvers r s = some v →
      f.value.isBoolT = true → parseBool v ≠ none) →
    (visitSpecs r f specs).2.1 = none := by
  intro specs
  induction specs with
  | nil => intro f _; rfl
  | cons spec rest ih =>
    intro f h
    rw [visitSpecs]
    by_cases hn : spec.longName = f.name
    · rw [if_pos hn]
      cases htr : tryResolvers r spec with
      | some v =>
        rcases hvs : valueSet f.value v with ⟨nv, e⟩
        have he : e = none := by
          have := valueSet_err_none f.value v
            (h spec (List.mem_cons_self spec rest) hn v htr)
          rw [hvs] at this
          exact this
        subst he
        rcases hrec : visitSpecs r { f with value := nv } rest with ⟨fr, er, ms⟩
        have her : er = none := by
          have hb : nv.isBoolT = f.value.isBoolT := by
            have := valueSet_isBoolT f.value v
            rw [hvs] at this
            exact this
          have := ih { f with value := nv } ?_
          · rw [hrec] at this
            exact this
          · intro s hs hl v2 htr2 hbt
            exact h s (List.mem_cons_of_mem _ hs) hl v2 htr2 (by rw [← hb]; exact hbt)
        subst her
        simp [hvs, hrec, Option.orElse]
      | none =>
        have htail : (visitSpecs r f rest).2.1 = none :=
          ih f (fun s hs => h s (List.mem_cons_of_mem _ hs))
        by_cases hreq : spec.required = true
        · rcases hrec : visitSpecs r f rest with ⟨fr, er, ms⟩
          rw [hrec] at htail
          simp only [hreq, if_true, hrec]
          exact htail
        · have hreq' : spec.required = false := by simpa using hreq
          simp only [hreq', Bool.false_eq_true, if_false]
          exact htail
    · rw [if_neg hn]
      exact ih f (fun s hs => h s (List.mem_cons_of_mem _ hs))

/-- Helper: every typed-set error of the spec loop is a bool-parse failure. -/
theorem visitSpecs_err_shape (r : List Resolver) :
    ∀ (specs : List FlagSpec) (f : PFlag) (e : GoErr),
    (visitSpecs r f specs).2.1 = some e →
    ∃ w, e = .invalidSyntax "ParseBool" w := by
  intro specs
  induction specs with
  | nil =>
    intro f e h
    exact absurd h (by simp [visitSpecs])
  | cons spec rest ih =>
    intro f e h
    rw [visitSpecs] at h
    by_cases hn : spec.longName = f.name
    · rw [if_pos hn] at h
      cases htr : tryResolvers r spec with
      | some v =>
        rcases hvs : valueSet f.value v with ⟨nv, e0⟩
        rcases hrec : visitSpecs r { f with value := nv } rest with ⟨fr, er, ms⟩
        simp only [htr, hvs, hrec] at h
        cases her : er with
        | some e1 =>
          rw [her] at h
          have h1 : e1 = e := by simpa [Option.orElse] using h
          have := ih { f with value := nv } e1
          rw [hrec] at this
          obtain ⟨w, hw⟩ := this (by rw [her])
          exact ⟨w, h1 ▸ hw⟩
        | none =>
          rw [her] at h
          have h0 : e0 = some e := by simpa [Option.orElse] using h
          have := valueSet_err_shape f.value v e
          rw [hvs] at this
          exact ⟨v, this h0⟩
      | none =>
        by_cases hreq : spec.required = true
        · rcases hrec : visitSpecs r f rest with ⟨fr, er, ms⟩
          simp only [htr, hreq, if_true, hrec] at h
          have := ih f e
          rw [hrec] at this
          exact this h
        · have hreq' : spec.required = false := by simpa using hreq
          simp only [htr, hreq', Bool.false_eq_true, if_false] at h
          exact ih f e h
    · rw [if_neg hn] at h
      exact ih f e h

/-- Helper: the spec loop produces a typed-set error when some matching
declared Flag gets a resolver value its (bool) slot rejects. -/
theorem visitSpecs_err_some (r : List Resolver) :
    ∀ (specs : List FlagSpec) (f : PFlag),
    (∃ s ∈ specs, s.longName = f.name ∧ ∃ v, tryResolvers r s = some v ∧
      f.value.isBoolT = true ∧ parseBool v = none) →
    (visitSpecs r f specs).2.1 ≠ none := by
  intro specs
  induction specs with
  | nil =>
    rintro f ⟨s, hs, _⟩
    exact absurd hs (List.not_mem_nil s)
  | cons spec rest ih =>
    rintro f ⟨s, hs, hl, v, htrv, hbt, hpv⟩
    rw [visitSpecs]
    rcases List.mem_cons.mp hs with hhead | htail
    · subst hhead
      rw [if_pos hl, htrv]
      rcases hvs : valueSet f.value v with ⟨nv, e0⟩
      have he0 : e0 = some (.invalidSyntax "ParseBool" v) := by
        have := valueSet_err_some f.value v hbt hpv
        rw [hvs] at this
        exact this
      subst he0
      rcases hrec : visitSpecs r { f with value := nv } rest with ⟨fr, er, ms⟩
      cases er <;> simp [hvs, hrec, Option.orElse]
    · by_cases hn : spec.longName = f.name
      · rw [if_pos hn]
        cases htr : tryResolvers r spec with
        | some v2 =>
          rcases hvs : valueSet f.value v2 with ⟨nv, e0⟩
          rcases hrec : visitSpecs r { f with value := nv } rest with ⟨fr, er, ms⟩
          have hb : nv.isBoolT = f.value.isBoolT := by
            have := valueSet_isBoolT f.value v2
            rw [hvs] at this
            exact this
          have her : er ≠ none := by
            have := ih { f with value := nv }
              ⟨s, htail, hl, v, htrv, by rw [hb]; exact hbt, hpv⟩
            rw [hrec] at this
            exact this
          cases he : er with
          | none => exact absurd he her
          | some e1 => simp [hvs, hrec, he, Option.orElse]
        | none =>
          have htl : (visitSpecs r f rest).2.1 ≠ none :=
            ih f ⟨s, htail, hl, v, htrv, hbt, hpv⟩
          by_cases hreq : spec.required = true
          · rcases hrec : visitSpecs r f rest with ⟨fr, er, ms⟩
            rw [hrec] at htl
            simp only [hreq, if_true, hrec]
            exact htl
          · have hreq' : spec.required = false := by simpa using hreq
            simp only [hreq', Bool.false_eq_true, if_false]
            exact htl
      · rw [if_neg hn]
        exact ih f ⟨s, htail, hl, v, htrv, hbt, hpv⟩

/-- Helper: `visitFlag` never changes the visited flag's signature. -/
theorem visitFlag_sig (r : List Resolver) (specs : List FlagSpec) (f : PFlag) :
    flagSig (visitFlag r specs f).1 = flagSig f := by
  unfold visitFlag
  by_cases hch : f.changed = true
  · simp [hch]
  · have hch' : f.changed = false := by simpa using hch
    simp only [hch', Bool.false_eq_true, if_false]
    exact visitSpecs_sig r specs f

/-- Helper: the missing names appended by `visitFlag` are determined by the
flag's signature. -/
theorem visitFlag_miss (r : List Resolver) (specs : List FlagSpec) (f : PFlag) :
    (visitFlag r specs f).2.2 = sigContrib specs r (some (flagSig f)) := by
  unfold visitFlag sigContrib flagSig
  by_cases hch : f.changed = true
  · simp [hch]
  · have hch' : f.changed = false := by simpa using hch
    simp only [hch', Bool.false_eq_true, if_false]
    exact visitSpecs_miss r specs f

/-- Helper: `visitFlag` produces no typed-set error for a flag whose
signature satisfies `okSigP`. -/
theorem visitFlag_err_none (r : List Resolver) (specs : List FlagSpec)
    (f : PFlag) (h : okSigP specs r (flagSig f)) :
    (visitFlag r specs f).2.1 = none := by
  unfold visitFlag
  by_cases hch : f.changed = true
  · simp [hch]
  · have hch' : f.changed = false := by simpa using hch
    simp only [hch', Bool.false_eq_true, if_false]
    exact visitSpecs_err_none r specs f (h hch')

/-- Helper: every `visitFlag` typed-set error is a bool-parse failure. -/
theorem visitFlag_err_shape (r : List Resolver) (specs : List FlagSpec)
    (f : PFlag) (e : GoErr) (h : (visitFlag r specs f).2.1 = some e) :
    ∃ w, e = .invalidSyntax "ParseBool" w := by
  unfold visitFlag at h
  by_cases hch : f.changed = true
  · rw [if_pos hch] at h
    exact absurd h (by simp)
  · have hch' : f.changed = false := by simpa using hch
    rw [hch'] at h
    simp only [Bool.false_eq_true, if_false] at h
    exact visitSpecs_err_shape r specs f e h

/-- Helper: `visitFlag` produces a typed-set error for a flag whose
signature satisfies `failSigP`. -/
theorem visitFlag_err_some (r : List Resolver) (specs : List FlagSpec)
    (f : PFlag) (h : failSigP specs r (flagSig f)) :
    (visitFlag r specs f).2.1 ≠ none := by
  obtain ⟨hch, hbt, s, hs, hl, v, htrv, hpv⟩ := h
  simp only [flagSig] at hch hbt hl
  unfold visitFlag
  rw [hch]
  simp only [Bool.false_eq_true, if_false]
  exact visitSpecs_err_some r specs f ⟨s, hs, hl, v, htrv, hbt, hpv⟩

/-- Helper: a successful lookup returns a flag with the looked-up name. -/
theorem lookup_name (fs : FlagSet) (n : String) (f : PFlag)
    (h : lookup fs n = some f) : f.name = n := by
  have := List.find?_some h
  simpa using this

/-- Helper: a successful lookup returns a registered flag. -/
theorem lookup_mem (fs : FlagSet) (n : String) (f : PFlag)
    (h : lookup fs n = some f) : f ∈ fs.formal :=
  List.mem_of_find?_eq_some h

/-- Helper: lookups in an updated set are the mapped lookups, when the
replacement keeps the registered name. -/
theorem lookup_updateFlag (fs : FlagSet) (n : String) (f' : PFlag)
    (hn : f'.name = n) (m : String) :
    lookup (updateFlag fs n (fun _ => f')) m =
      (lookup fs m).map (fun f => if f.name = n then f' else f) := by
  unfold lookup updateFlag
  simp only [List.find?_map]
  have hfun : ((fun f => decide (f.name = m)) ∘ fun f => if f.name = n then f' else f) =
      (fun f : PFlag => decide (f.name = m)) := by
    funext f
    by_cases hf : f.name = n <;> simp [Function.comp, hf, hn]
  rw [hfun]

/-- Helper: a signature-preserving replacement of the flag registered at `n`
keeps every lookup's signature. -/
theorem lookup_updateFlag_sig (fs : FlagSet) (n : String) (f f' : PFlag)
    (hlf : lookup fs n = some f) (hsig : flagSig f' = flagSig f) (m : String) :
    (lookup (updateFlag fs n (fun _ => f')) m).map flagSig =
      (lookup fs m).map flagSig := by
  have hn : f.name = n := lookup_name _ _ _ hlf
  have hn' : f'.name = n := by
    have := congrArg Prod.fst hsig
    simpa [flagSig, hn] using this
  rw [lookup_updateFlag fs n f' hn' m]
  cases hm : lookup fs m with
  | none => rfl
  | some g =>
    by_cases hg : g.name = n
    · have hgm : g.name = m := lookup_name _ _ _ hm
      have hmn : m = n := by rw [← hgm, hg]
      subst hmn
      have hgf : g = f := by
        have := hm.symm.trans hlf
        exact Option.some.inj this
      subst hgf
      simp [hg, hsig]
    · simp [hg]

/-- Helper: one `visitStep` keeps every lookup's signature. -/
theorem visitStep_sig (flags : List FlagSpec) (r : List Resolver)
    (st : FlagSet × Option GoErr × List String) (n m : String) :
    (lookup (visitStep flags r st n).1 m).map flagSig =
      (lookup st.1 m).map flagSig := by
  unfold visitStep
  cases hlf : lookup st.1 n with
  | none => rfl
  | some f =>
    rcases hvf : visitFlag r flags f with ⟨f', e, ms⟩
    have hsig : flagSig f' = flagSig f := by
      have := visitFlag_sig r flags f
      rw [hvf] at this
      exact this
    simp only [hvf]
    exact lookup_updateFlag_sig st.1 n f f' hlf hsig m

/-- Helper: the `VisitAll` fold of the resolver pass keeps every lookup's
signature. -/
theorem foldVisit_sig (flags : List FlagSpec) (r : List Resolver) :
    ∀ (names : List String) (st : FlagSet × Option GoErr × List String)
      (m : String),
    (lookup (names.foldl (visitStep flags r) st).1 m).map flagSig =
      (lookup st.1 m).map flagSig := by
  intro names
  induction names with
  | nil => intro st m; rfl
  | cons n ns ih =>
    intro st m
    rw [List.foldl_cons, ih]
    exact visitStep_sig flags r st n m

/-- Helper: the fold keeps an already-recorded typed-set error recorded. -/
theorem foldVisit_err_stays (flags : List FlagSpec) (r : List Resolver) :
    ∀ (names : List String) (st : FlagSet × Option GoErr × List String),
    st.2.1 ≠ none → (names.foldl (visitStep flags r) st).2.1 ≠ none := by
  intro names
  induction names with
  | nil => intro st h; exact h
  | cons n ns ih =>
    intro st h
    rw [List.foldl_cons]
    refine ih _ ?_
    unfold visitStep
    cases hlf : lookup st.1 n with
    | none => exact h
    | some f =>
      rcases hvf : visitFlag r flags f with ⟨f', e, ms⟩
      simp only [hvf]
      cases e <;> simp [Option.orElse, h]

/-- Helper: the fold preserves the shape of the recorded typed-set error. -/
theorem foldVisit_err_shape (flags : List FlagSpec) (r : List Resolver) :
    ∀ (names : List String) (st : FlagSet × Option GoErr × List String),
    (st.2.1 = none ∨ ∃ w, st.2.1 = some (.invalidSyntax "ParseBool" w)) →
    ((names.foldl (visitStep flags r) st).2.1 = none ∨
      ∃ w, (names.foldl (visitStep flags r) st).2.1 =
        some (.invalidSyntax "ParseBool" w)) := by
  intro names
  induction names with
  | nil => intro st h; exact h
  | cons n ns ih =>
    intro st h
    rw [List.foldl_cons]
    refine ih _ ?_
    unfold visitStep
    cases hlf : lookup st.1 n with
    | none => exact h
    | some f =>
      rcases hvf : visitFlag r flags f with ⟨f', e, ms⟩
      simp only [hvf]
      cases he : e with
      | none => simpa [Option.orElse] using h
      | some e1 =>
        right
        have := visitFlag_err_shape r flags f e1 (by rw [hvf, he])
        obtain ⟨w, hw⟩ := this
        exact ⟨w, by simp [Option.orElse, hw]⟩

/-- Helper: when every visited flag's signature admits no typed-set failure,
the fold records no error. -/
theorem foldVisit_err_none (flags : List FlagSpec) (r : List Resolver) :
    ∀ (names : List String) (st : FlagSet × Option GoErr × List String),
    st.2.1 = none →
    (∀ n ∈ names, ∀ sg, (lookup st.1 n).map flagSig = some sg →
      okSigP flags r sg) →
    (names.foldl (visitStep flags r) st).2.1 = none := by
  intro names
  induction names with
  | nil => intro st h _; exact h
  | cons n ns ih =>
    intro st h hall
    rw [List.foldl_cons]
    refine ih _ ?_ ?_
    · unfold visitStep
      cases hlf : lookup st.1 n with
      | none => exact h
      | some f =>
        rcases hvf : visitFlag r flags f with ⟨f', e, ms⟩
        have he : e = none := by
          have := visitFlag_err_none r flags f
            (hall n (List.mem_cons_self n ns) (flagSig f) (by rw [hlf]; rfl))
          rw [hvf] at this
          exact this
        subst he
        simp [hvf, Option.orElse, h]
    · intro m hm sg hsg
      refine hall m (List.mem_cons_of_mem _ hm) sg ?_
      rw [← visitStep_sig flags r st n m]
      exact hsg

/-- Helper: a visited flag whose signature has a rejected resolver value
makes the fold record an error. -/
theorem foldVisit_err_some (flags : List FlagSpec) (r : List Resolver) :
    ∀ (names : List String) (st : FlagSet × Option GoErr × List String),
    (∃ n ∈ names, ∃ sg, (lookup st.1 n).map flagSig = some sg ∧
      failSigP flags r sg) →
    (names.foldl (visitStep flags r) st).2.1 ≠ none := by
  intro names
  induction names with
  | nil =>
    rintro st ⟨n, hn, _⟩
    exact absurd hn (List.not_mem_nil n)
  | cons n ns ih =>
    rintro st ⟨n0, hn0, sg, hsg, hfail⟩
    rw [List.foldl_cons]
    rcases List.mem_cons.mp hn0 with hhead | htail
    · subst hhead
      refine foldVisit_err_stays flags r ns _ ?_
      unfold visitStep
      cases hlf : lookup st.1 n0 with
      | none =>
        rw [hlf] at hsg
        exact absurd hsg (by simp)
      | some f =>
        rw [hlf] at hsg
        have hsgf : flagSig f = sg := by simpa using hsg
        rcases hvf : visitFlag r flags f with ⟨f', e, ms⟩
        have he : e ≠ none := by
          have := visitFlag_err_some r flags f (hsgf ▸ hfail)
          rw [hvf] at this
          exact this
        simp only [hvf]
        cases he2 : e with
        | none => exact absurd he2 he
        | some e1 => simp [he2, Option.orElse]
    · refine ih _ ⟨n0, htail, sg, ?_, hfail⟩
      rw [visitStep_sig flags r st n n0]
      exact hsg

/-- Helper: the fold appends exactly the per-signature contributions of the
visited names. -/
theorem foldVisit_miss (flags : List FlagSpec) (r : List Resolver) :
    ∀ (names : List String) (st : FlagSet × Option GoErr × List String),
    (names.foldl (visitStep flags r) st).2.2 =
      st.2.2 ++ (names.map (fun n =>
        sigContrib flags r ((lookup st.1 n).map flagSig))).flatten := by
  intro names
  induction names with
  | nil => intro st; simp
  | cons n ns ih =>
    intro st
    rw [List.foldl_cons, ih]
    have hstep2 : (visitStep flags r st n).2.2 =
        st.2.2 ++ sigContrib flags r ((lookup st.1 n).map flagSig) := by
      unfold visitStep
      cases hlf : lookup st.1 n with
      | none => simp [sigContrib]
      | some f =>
        rcases hvf : visitFlag r flags f with ⟨f', e, ms⟩
        have hmc := visitFlag_miss r flags f
        rw [hvf] at hmc
        simp only [hvf, Option.map_some']
        simpa using hmc
    have hmaps : ns.map (fun m =>
        sigContrib flags r ((lookup (visitStep flags r st n).1 m).map flagSig)) =
        ns.map (fun m => sigContrib flags r ((lookup st.1 m).map flagSig)) := by
      refine List.map_congr_left ?_
      intro m _
      rw [visitStep_sig flags r st n m]
    rw [hmaps, hstep2]
    simp [List.flatten_cons, List.append_assoc]

/-- Helper: under unique names, looking up a registered flag's name finds it. -/
theorem find?_name_of_nodup (l : List PFlag)
    (hnd : (l.map PFlag.name).Nodup) (f : PFlag) (hf : f ∈ l) :
    l.find? (fun g => g.name = f.name) = some f := by
  induction l with
  | nil => exact absurd hf (List.not_mem_nil f)
  | cons a t ih =>
    have hnd2 : (∀ x ∈ t, ¬x.name = a.name) ∧ (t.map PFlag.name).Nodup := by
      simpa using hnd
    rcases List.mem_cons.mp hf with rfl | ht
    · simp [List.find?]
    · have hane : ¬a.name = f.name := fun he => hnd2.1 f ht he.symm
      rw [List.find?_cons_of_neg _ (by simpa using hane)]
      exact ih (by simpa using hnd2.2) ht

/-- Helper: under unique names, `Lookup` of a registered flag's name is it. -/
theorem lookup_of_nodup (fs : FlagSet)
    (hnd : (fs.formal.map PFlag.name).Nodup) (f : PFlag) (hf : f ∈ fs.formal) :
    lookup fs f.name = some f :=
  find?_name_of_nodup fs.formal hnd f hf

/-- Helper: a missing required flag named `n` contributes `n` to the visited
contribution of `n`. -/
theorem mem_sigContrib_of_missPred (fs : FlagSet) (specs : List FlagSpec)
    (resolvers : List Resolver) (n : String)
    (hnodup : (fs.formal.map PFlag.name).Nodup)
    (hmp : missPred fs specs resolvers n) :
    n ∈ sigContrib specs resolvers ((lookup fs n).map flagSig) := by
  obtain ⟨f0, hf0, hfn, hfch, s0, hs0, hsl, hsn, hsr⟩ := hmp
  have hlk : lookup fs n = some f0 := by
    rw [← hfn]
    exact lookup_of_nodup fs hnodup f0 hf0
  rw [hlk]
  simp only [Option.map_some', flagSig, sigContrib, hfn, hfch,
    Bool.false_eq_true, if_false]
  rw [List.mem_map]
  refine ⟨s0, ?_, hsl⟩
  rw [List.mem_filter]
  exact ⟨hs0, by simp [hsl, hsn, hsr]⟩

/-- Helper: a missing required flag's name is among the visited names. -/
theorem mem_visitNames_of_missPred (fs : FlagSet) (specs : List FlagSpec)
    (resolvers : List Resolver) (n : String)
    (hmp : missPred fs specs resolvers n) :
    n ∈ (sortedFormal fs).map (fun f => f.name) := by
  obtain ⟨f0, hf0, hfn, _⟩ := hmp
  rw [List.mem_map]
  exact ⟨f0, (mem_sortedFormal fs f0).mpr hf0, hfn⟩

/-- C4 counterexample: `region` is the only required flag, it is unset, and
no resolver produces a value for it; but another unset flag (`conf`, bool)
receives a resolver value its slot rejects, and `ResolveMissingFlags` returns
that typed-set error instead of the claimed `MissingRequiredFlags` aggregate. -/
theorem c4_counterexample :
    (constConfResolver "zzz") regionReq = none ∧
    (resolveMissingFlags (newFS [regionReq, confFlag]) [regionReq, confFlag]
        [constConfResolver "zzz"]).2 =
      some (.invalidSyntax "ParseBool" "zzz") := by
  decide

/-- C4 (amended): under the flag-set uniqueness invariant and provided no
resolver-produced value is rejected by its flag's typed slot, if some
required flag is unset on the command line with no resolver value, the
resolver pass fails with one aggregate `MissingRequiredFlags` error whose
name list holds exactly the names of the missing required flags (every one
of them, never just the first). -/
theorem c4_missing_aggregate (fs : FlagSet) (specs : List FlagSpec)
    (resolvers : List Resolver)
    (hnodup : (fs.formal.map PFlag.name).Nodup)
    (hresolve : ∀ f ∈ fs.formal, f.changed = false → ∀ s ∈ specs,
      s.longName = f.name → ∀ v, tryResolvers resolvers s = some v →
      f.value.isBoolT = true → parseBool v ≠ none)
    (hmiss : ∃ n, missPred fs specs resolvers n) :
    ∃ names, (resolveMissingFlags fs specs resolvers).2 =
        some (.missingRequired names) ∧
      ∀ n, (n ∈ names ↔ missPred fs specs resolvers n) := by
  have herr : (((sortedFormal fs).map (fun f => f.name)).foldl
      (visitStep specs resolvers) (fs, none, [])).2.1 = none := by
    refine foldVisit_err_none specs resolvers _ (fs, none, []) rfl ?_
    intro n hn sg hsg
    cases hlf : lookup fs n with
    | none =>
      rw [hlf] at hsg
      exact absurd hsg (by simp)
    | some f =>
      rw [hlf] at hsg
      have hsgf : flagSig f = sg := by simpa using hsg
      subst hsgf
      exact fun hch s hs hl v htrv hbt =>
        hresolve f (lookup_mem fs n f hlf) hch s hs hl v htrv hbt
  have hmissL := foldVisit_miss specs resolvers
    ((sortedFormal fs).map (fun f => f.name)) (fs, none, [])
  refine ⟨(((sortedFormal fs).map (fun f => f.name)).map (fun n =>
    sigContrib specs resolvers ((lookup fs n).map flagSig))).flatten, ?_, ?_⟩
  · have hMne : (((sortedFormal fs).map (fun f => f.name)).map (fun n =>
        sigContrib specs resolvers ((lookup fs n).map flagSig))).flatten ≠ [] := by
      obtain ⟨n0, hmp⟩ := hmiss
      refine List.ne_nil_of_mem (a := n0) ?_
      rw [List.mem_flatten]
      exact ⟨sigContrib specs resolvers ((lookup fs n0).map flagSig),
        List.mem_map_of_mem _ (mem_visitNames_of_missPred fs specs resolvers n0 hmp),
        mem_sigContrib_of_missPred fs specs resolvers n0 hnodup hmp⟩
    unfold resolveMissingFlags
    simp only [herr, hmissL, List.nil_append]
    rw [if_pos hMne]
  · intro n
    constructor
    · intro hmem
      rw [List.mem_flatten] at hmem
      obtain ⟨c, hc, hnc⟩ := hmem
      rw [List.mem_map] at hc
      obtain ⟨n', hn', hc'⟩ := hc
      subst hc'
      cases hlf : lookup fs n' with
      | none =>
        rw [hlf] at hnc
        exact absurd hnc (by simp [sigContrib])
      | some fl =>
        rw [hlf] at hnc
        simp only [Option.map_some', flagSig, sigContrib] at hnc
        by_cases hch : fl.changed = true
        · simp [hch] at hnc
        · have hch' : fl.changed = false := by simpa using hch
          simp only [hch', Bool.false_eq_true, if_false] at hnc
          rw [List.mem_map] at hnc
          obtain ⟨s, hsf, hsn⟩ := hnc
          rw [List.mem_filter] at hsf
          obtain ⟨hss, hscond⟩ := hsf
          have hfln : fl.name = n' := lookup_name fs n' fl hlf
          simp only [Bool.and_eq_true, decide_eq_true_eq,
            Option.isNone_iff_eq_none] at hscond
          have hnn' : n = n' := by rw [← hsn, hscond.1.1, hfln]
          subst hnn'
          exact ⟨fl, lookup_mem fs n fl hlf, hfln, hch', s, hss,
            by rw [← hsn], hscond.1.2, hscond.2⟩
    · intro hmp
      rw [List.mem_flatten]
      exact ⟨sigContrib specs resolvers ((lookup fs n).map flagSig),
        List.mem_map_of_mem _ (mem_visitNames_of_missPred fs specs resolvers n hmp),
        mem_sigContrib_of_missPred fs specs resolvers n hnodup hmp⟩

/-- Witness for C4: two required flags (`region`, `token`), both unset with
no resolvers; the aggregate error carries both names. -/
theorem c4_missing_aggregate_witness :
    ((newFS [regionReq, tokenReq]).formal.map PFlag.name).Nodup ∧
    ∃ names, (resolveMissingFlags (newFS [regionReq, tokenReq])
        [regionReq, tokenReq] []).2 = some (.missingRequired names) ∧
      "region" ∈ names ∧ "token" ∈ names := by
  refine ⟨by decide, ?_⟩
  obtain ⟨names, h1, h2⟩ := c4_missing_aggregate (newFS [regionReq, tokenReq])
    [regionReq, tokenReq] [] (by decide)
    (fun f hf hch s hs hl v hv => absurd hv (by simp [tryResolvers]))
    ⟨"region", by decide⟩
  exact ⟨names, h1, (h2 "region").2 (by decide), (h2 "token").2 (by decide)⟩

/-- C9: a resolver-produced value rejected by its flag's typed slot takes
priority over required-flag aggregation — whenever some unset flag has a
matching declared Flag whose first resolver value fails to parse at the
(bool) slot, `ResolveMissingFlags` returns that typed-set error, even if
required flags are also missing (the aggregate is suppressed). -/
theorem c9_resolver_error_priority (fs : FlagSet) (specs : List FlagSpec)
    (resolvers : List Resolver)
    (hnodup : (fs.formal.map PFlag.name).Nodup)
    (hfail : ∃ f ∈ fs.formal, f.changed = false ∧ f.value.isBoolT = true ∧
      ∃ s ∈ specs, s.longName = f.name ∧ ∃ v, tryResolvers resolvers s = some v ∧
        parseBool v = none) :
    ∃ w, (resolveMissingFlags fs specs resolvers).2 =
      some (.invalidSyntax "ParseBool" w) := by
  obtain ⟨f, hf, hch, hbt, s, hs, hl, v, htrv, hpv⟩ := hfail
  have hne : (((sortedFormal fs).map (fun f => f.name)).foldl
      (visitStep specs resolvers) (fs, none, [])).2.1 ≠ none := by
    refine foldVisit_err_some specs resolvers _ (fs, none, [])
      ⟨f.name, ?_, flagSig f, ?_, hch, hbt, s, hs, hl, v, htrv, hpv⟩
    · rw [List.mem_map]
      exact ⟨f, (mem_sortedFormal fs f).mpr hf, rfl⟩
    · rw [lookup_of_nodup fs hnodup f hf]
      rfl
  have hshape := foldVisit_err_shape specs resolvers
    ((sortedFormal fs).map (fun f => f.name)) (fs, none, []) (Or.inl rfl)
  rcases hshape with hnone | ⟨w, hw⟩
  · exact absurd hnone hne
  · refine ⟨w, ?_⟩
    unfold resolveMissingFlags
    simp only [hw]

/-- Witness for C9: the bool flag `conf` resolves to the unparsable value
`zzz` while the required `region` flag is missing; the returned error is the
bool-parse failure for `zzz`, not the missing-required aggregate. -/
theorem c9_resolver_error_priority_witness :
    ((newFS [confFlag, regionReq]).formal.map PFlag.name).Nodup ∧
    (∃ w, (resolveMissingFlags (newFS [confFlag, regionReq])
        [confFlag, regionReq] [constConfResolver "zzz"]).2 =
      some (.invalidSyntax "ParseBool" w)) ∧
    (resolveMissingFlags (newFS [confFlag, regionReq]) [confFlag, regionReq]
        [constConfResolver "zzz"]).2 =
      some (.invalidSyntax "ParseBool" "zzz") :=
  ⟨by decide,
    c9_resolver_error_priority _ _ _ (by decide)
      ⟨⟨"conf", "", .b false, "true", false⟩, by decide, by decide, by decide,
        confFlag, by decide, by decide, "zzz", by decide, by decide⟩,
    by decide⟩

/-- Witness for C5: the inherited `debug, d` flag collides with a local
`debug` flag; merging fails with the redefined-global error naming exactly
`debug`. -/
theorem c5_redefined_global_witness :
    pairwiseDistinct (newFS [dbgFlag]).formal ∧
    (∃ f ∈ (newFS [dbgFlag]).formal, collides (newFS [dbgLocal]) f = true) ∧
    ∃ names, combinedFlags "child" (newFS [dbgLocal]) (some (newFS [dbgFlag])) =
        .error (.misconfigured "child" (.redefinedGlobal names)) ∧
      ∀ n, (n ∈ names ↔ ∃ f ∈ (newFS [dbgFlag]).formal, f.name = n ∧
        collides (newFS [dbgLocal]) f = true) :=
  ⟨by decide, by decide,
    (c5_redefined_global "child" (newFS [dbgLocal]) (newFS [dbgFlag])
      (by decide)).1 (by decide)⟩

end Cli
